import Mathlib

/-!
# Verification of the carbon-credit growth simulator

Shallow embedding of `src/carbon_simulator.py` (class `CarbonCreditSimulator`)
together with the small caller-side buffer arithmetic of `src/app.py`.

Modelling conventions:
* Python floats are modelled as exact rationals (`ℚ`); the only genuinely
  real-valued operation, the float power `dbh ** b` in `calculate_agb_kg`,
  is modelled as `Real.rpow`, so biomass-valued quantities live in `ℝ`.
* Python `int(x)` (truncation toward zero) is `pyInt`.
* Python dicts (the coefficient cache, `current_trees`, `thin_dict`) are
  insertion-ordered association lists with replace-on-existing-key update,
  which is exactly the observable iteration/lookup behaviour of `dict`.
* `np.sort` is modelled by `List.insertionSort (· ≤ ·)`: on a list of exact
  rationals the ascending sorted permutation is unique, so any correct sort
  denotes the same list.
* The imperative per-year loop, which mutates `current_trees` and appends a
  record computed from the mutated state, is written as `stateAfter` (the
  stand state after `y` completed years) plus `mkRecord` (the record emitted
  at the end of year `y`); the emitted values are identical.
-/

namespace CarbonSim

/-- Module-level constant `CARBON_FRACTION = 0.47` of carbon_simulator.py. -/
def CARBON_FRACTION : ℚ := 0.47

/-- Module-level constant `CO2E_FACTOR = 3.67`. -/
def CO2E_FACTOR : ℚ := 3.67

/-- Module-level constant 0.20, named ROOT_SHOOT RATIO in the source. -/
def ROOT_SHOOT : ℚ := 0.20

/-- Module-level constant `VERRA_BUFFER = 0.20` (20% non-permanence buffer). -/
def VERRA_BUFFER : ℚ := 0.20

/-- Python `int(x)` on a float: truncation toward zero. -/
def pyInt (q : ℚ) : ℤ := if q < 0 then ⌈q⌉ else ⌊q⌋

/-- One value of the coefficient cache: `{'a': _, 'b': _, 'wood_density': _}`. -/
structure Coeffs where
  a : ℚ
  b : ℚ
  wood_density : ℚ
  deriving DecidableEq, Repr

/-- One row of the coefficient table (`allometric_equations.csv`):
columns `species_name`, `region`, `a`, `b` and optional `wood_density`. -/
structure Row where
  species_name : String
  region : String
  a : ℚ
  b : ℚ
  wood_density : Option ℚ
  deriving DecidableEq, Repr

/-- Insertion-ordered association-list update with Python `dict` semantics:
assigning to an existing key replaces its value in place, a new key is
appended at the end. -/
def alUpsert {K V : Type} [DecidableEq K] (l : List (K × V)) (k : K) (v : V) :
    List (K × V) :=
  if l.any (fun p => p.1 = k) then
    l.map (fun p => if p.1 = k then (k, v) else p)
  else
    l ++ [(k, v)]

/-- Association-list lookup (`key in dict` / `dict[key]`). -/
def alLookup {K V : Type} [DecidableEq K] (l : List (K × V)) (k : K) :
    Option V :=
  (l.find? (fun p => p.1 = k)).map (fun p => p.2)

/-- Method `_build_coeff_cache`: iterate over the table rows in order, keyed by
`(species_name, region)`; a missing `wood_density` defaults to `0.5`. -/
def buildCoeffCache (rows : List Row) : List ((String × String) × Coeffs) :=
  rows.foldl
    (fun cache r =>
      alUpsert cache (r.species_name, r.region)
        ⟨r.a, r.b, r.wood_density.getD 0.5⟩)
    []

/-- Method `get_coeffs(self, species, region)`: exact `(species, region)` hit, else
the first cache entry for the same species in any region, else the
Chave et al. 2014 tropical default. -/
def get_coeffs (cache : List ((String × String) × Coeffs))
    (species region : String) : Coeffs :=
  match alLookup cache (species, region) with
  | some c => c
  | none =>
    match cache.find? (fun p => p.1.1 = species) with
    | some p => p.2
    | none => ⟨0.0673, 2.3230, 0.5⟩

/-- Method `calculate_agb_kg(self, dbh_cm, species, region)`:
`max(a * dbh_cm ** b, 0.01)`.  The float power is modelled by `Real.rpow`. -/
noncomputable def calculate_agb_kg (cache : List ((String × String) × Coeffs))
    (dbh_cm : ℝ) (species region : String) : ℝ :=
  let coeffs := get_coeffs cache species region
  max ((coeffs.a : ℝ) * dbh_cm ^ (coeffs.b : ℝ)) 0.01

/-- The `soc_defaults` dict lookup `soc_defaults.get(region, 75)` inside
`estimate_soil_carbon`. -/
def socDefault (region : String) : ℚ :=
  if region = "tropical" then 75
  else if region = "temperate" then 100
  else if region = "boreal" then 150
  else 75

/-- Method `estimate_soil_carbon(self, area_ha, region, project_years=40)`.
The `project_years` parameter is accepted and unused, exactly as in the
source. -/
def estimate_soil_carbon (area_ha : ℚ) (region : String)
    (project_years : ℕ) : ℚ :=
  let initial_soc_t := area_ha * socDefault region
  let delta_soc_t := initial_soc_t * 0.10
  let soil_co2e_t := delta_soc_t * CO2E_FACTOR
  soil_co2e_t

/-- The `tropical_fast` species list of `_get_dbh_growth_mm`. -/
def tropical_fast : List String :=
  ["Acacia mangium", "Eucalyptus grandis", "Gmelina arborea",
   "Paulownia tomentosa", "Leucaena leucocephala"]

/-- Method `_get_dbh_growth_mm(self, species, region)`: regional base growth rate,
20.0 for listed fast tropical species, 12.0 other tropical, 8.0 temperate,
5.0 in the `else` branch (boreal and anything else).  Note: the method takes
no management flags. -/
def _get_dbh_growth_mm (species region : String) : ℚ :=
  if region = "tropical" then
    (if species ∈ tropical_fast then 20.0 else 12.0)
  else if region = "temperate" then 8.0
  else 5.0

/-- One entry of `current_trees`: `{'count': _, 'dbh_cm': _, 'region': _}`. -/
structure Cohort where
  count : ℤ
  dbh : List ℚ
  region : String
  deriving DecidableEq, Repr

/-- One entry of the caller-supplied `species_mix`. -/
structure MixEntry where
  species_name : String
  region : String
  pct : ℚ
  density : ℚ
  deriving DecidableEq, Repr

/-- One entry of the `thinning_schedule` list (`{'year': _, 'pct_remove': _}`). -/
structure ThinEntry where
  year : ℕ
  pct_remove : ℚ
  deriving DecidableEq, Repr

/-- Model of `np.sort(arr)`: the ascending sorted permutation. -/
def sortAsc (l : List ℚ) : List ℚ := l.insertionSort (· ≤ ·)

/-- The slice `np.sort(arr)[-k:]`: the `k` largest values (Python slice
semantics: `[-0:]` is the whole array, `k ≥ len` gives the whole array). -/
def cull (l : List ℚ) (k : ℕ) : List ℚ :=
  if k = 0 then sortAsc l else (sortAsc l).drop (l.length - k)

/-- The statement `data['dbh_cm'] += growth_mm / 10.0`: uniform growth of every diameter. -/
def growDbh (growth_mm : ℚ) (l : List ℚ) : List ℚ :=
  l.map (fun d => d + growth_mm / 10)

/-- The mortality block of the year loop: `survivors = int(count * (1 -
annual_mortality))`; clear the cohort if `survivors <= 0`, else keep the
`survivors` largest diameters (only when the array is longer than
`survivors`) and set the count. -/
def mortalityStep (annual_mortality : ℚ) (c : Cohort) : Cohort :=
  let survivors := pyInt ((c.count : ℚ) * (1 - annual_mortality))
  if survivors ≤ 0 then { c with count := 0, dbh := [] }
  else
    let dbh1 := if survivors.toNat < c.dbh.length then cull c.dbh survivors.toNat
                else c.dbh
    { c with count := survivors, dbh := dbh1 }

/-- The thinning block: when the year is scheduled, `keep_count =
int(survivors * (1 - remove_frac))`; keep the largest `keep_count` diameters
or clear the cohort. -/
def thinningStep (remove_frac : Option ℚ) (c : Cohort) : Cohort :=
  match remove_frac with
  | none => c
  | some frac =>
    let keep_count := pyInt ((c.count : ℚ) * (1 - frac))
    if 0 < keep_count then
      { c with count := keep_count, dbh := cull c.dbh keep_count.toNat }
    else { c with count := 0, dbh := [] }

/-- The growth block: add `growth_mm / 10` cm to every diameter. -/
def growthStep (species : String) (c : Cohort) : Cohort :=
  { c with dbh := growDbh (_get_dbh_growth_mm species c.region) c.dbh }

/-- One cohort's full year step.  A cohort with `count <= 0` is skipped
(`continue`), and a cohort cleared by mortality is also skipped for the
rest of the year (`continue`). -/
def stepCohort (annual_mortality : ℚ) (remove_frac : Option ℚ)
    (species : String) (c : Cohort) : Cohort :=
  if c.count ≤ 0 then c
  else
    let c1 := mortalityStep annual_mortality c
    if c1.count ≤ 0 then c1
    else growthStep species (thinningStep remove_frac c1)

/-- Initial stand setup: `trees = int(area_ha * density * pct)` with
`pct = mix['pct'] / 100.0`, diameters `np.full(trees, 1.0)`; `current_trees`
is a dict keyed by species name. -/
def buildStand (area_ha : ℚ) (species_mix : List MixEntry) :
    List (String × Cohort) :=
  species_mix.foldl
    (fun stand e =>
      let trees := pyInt (area_ha * e.density * (e.pct / 100))
      alUpsert stand e.species_name
        ⟨trees, List.replicate trees.toNat 1.0, e.region⟩)
    []

/-- The dict `thin_dict` built as `t['year'] -> t['pct_remove']/100.0` over the schedule,
followed by `thin_dict[year]` when present: the last schedule entry for a
given year wins (dict-comprehension overwrite). -/
def thinFracAt (schedule : List ThinEntry) (year : ℕ) : Option ℚ :=
  (schedule.reverse.find? (fun t => t.year = year)).map
    (fun t => t.pct_remove / 100)

/-- One iteration of the year loop over all cohorts. -/
def stepYear (annual_mortality : ℚ) (schedule : List ThinEntry) (year : ℕ)
    (stand : List (String × Cohort)) : List (String × Cohort) :=
  stand.map (fun p =>
    (p.1, stepCohort annual_mortality (thinFracAt schedule year) p.1 p.2))

/-- The stand state after `y` completed simulated years (years 1..y). -/
def stateAfter (annual_mortality : ℚ) (schedule : List ThinEntry)
    (init : List (String × Cohort)) : ℕ → List (String × Cohort)
  | 0 => init
  | y + 1 =>
    stepYear annual_mortality schedule (y + 1)
      (stateAfter annual_mortality schedule init y)

/-- One cohort's biomass contribution for the year:
`sum(calculate_agb_kg(dbh, ...)) * (1 + ROOT_SHOOT)` (kg). -/
noncomputable def cohortAGB (cache : List ((String × String) × Coeffs))
    (species : String) (c : Cohort) : ℝ :=
  ((c.dbh.map (fun d => calculate_agb_kg cache (d : ℝ) species c.region)).sum)
    * (1 + (ROOT_SHOOT : ℝ))

/-- Accumulator `total_biomass` summed across all cohorts for one year (kg). -/
noncomputable def totalBiomassKg (cache : List ((String × String) × Coeffs))
    (stand : List (String × Cohort)) : ℝ :=
  (stand.map (fun p => cohortAGB cache p.1 p.2)).sum

/-- Total live stems `sum(d['count'] for d in current_trees.values())`. -/
def standTrees (stand : List (String × Cohort)) : ℤ :=
  (stand.map (fun p => p.2.count)).sum

/-- Helper: the stem total the record of year `y` reports. -/
def treesAt (annual_mortality : ℚ) (schedule : List ThinEntry)
    (init : List (String × Cohort)) (y : ℕ) : ℤ :=
  standTrees (stateAfter annual_mortality schedule init y)

/-- The dict appended to `yearly_results` each year, plus the
`total_gross_t` key the post-loop soil pass adds (held at `0` until that
pass runs; the loop also leaves `soil_co2e_gross_t` at `0`). -/
structure YearRec where
  year : ℕ
  trees_total : ℤ
  biomass_t : ℝ
  carbon_t : ℝ
  co2e_gross_t : ℝ
  co2e_net_t : ℝ
  soil_co2e_gross_t : ℚ
  total_gross_t : ℝ

/-- The record emitted at the end of year `y`.  Note the source stores the
gross value under the `'co2e_net_t'` key ("Will apply buffer later"); the
local `co2e_net_t = co2e_gross_t * (1 - VERRA_BUFFER)` of line 135 is never
written into the record. -/
noncomputable def mkRecord (cache : List ((String × String) × Coeffs))
    (y : ℕ) (stand : List (String × Cohort)) : YearRec :=
  let total_biomass := totalBiomassKg cache stand
  let carbon_t := total_biomass / 1000 * (CARBON_FRACTION : ℝ)
  let co2e_gross_t := carbon_t * (CO2E_FACTOR : ℝ)
  { year := y
    trees_total := standTrees stand
    biomass_t := total_biomass / 1000
    carbon_t := carbon_t
    co2e_gross_t := co2e_gross_t
    co2e_net_t := co2e_gross_t
    soil_co2e_gross_t := 0
    total_gross_t := 0 }

/-- The post-loop soil pass (`if species_mix:`): distribute the one-time
soil CO2e evenly and add the `total_gross_t` field. -/
noncomputable def soilPass (area_ha : ℚ) (species_mix : List MixEntry)
    (project_years : ℕ) (rs : List YearRec) : List YearRec :=
  match species_mix with
  | [] => rs
  | e :: _ =>
    let soil_co2e_total_gross :=
      estimate_soil_carbon area_ha e.region project_years
    let annual_soil_gross := soil_co2e_total_gross / project_years
    rs.map (fun r =>
      { r with
        soil_co2e_gross_t := annual_soil_gross
        total_gross_t := r.co2e_gross_t + (annual_soil_gross : ℝ) })

/-- Method `simulate_project(self, area_ha, species_mix, project_years=40,
annual_mortality=0.04, thinning_schedule=None)`: the full simulation,
returning the yearly records after the soil pass.  The method accepts no
management flags. -/
noncomputable def simulate_project (cache : List ((String × String) × Coeffs))
    (area_ha : ℚ) (species_mix : List MixEntry) (project_years : ℕ)
    (annual_mortality : ℚ) (thinning_schedule : List ThinEntry) :
    List YearRec :=
  let init := buildStand area_ha species_mix
  let rs := (List.range project_years).map
    (fun i =>
      mkRecord cache (i + 1)
        (stateAfter annual_mortality thinning_schedule init (i + 1)))
  soilPass area_ha species_mix project_years rs

/-- app.py line 292: `net_total = gross_total * (1 - buffer_fraction)` —
the buffer split is applied by the caller, not by the simulator. -/
def appNetTotal (gross_total buffer_fraction : ℚ) : ℚ :=
  gross_total * (1 - buffer_fraction)

/-- app.py line 293: `buffer_held = gross_total * buffer_fraction`. -/
def appBufferHeld (gross_total buffer_fraction : ℚ) : ℚ :=
  gross_total * buffer_fraction

/-! ## Theorems -/

/-- C2 (code_bug evidence): the growth-rate routine of the shipped simulator
takes no management flags and returns the bare regional base rate; in
particular for the managed scenario (fast tropical species, irrigation
requested by the caller) it returns 20.0, not the claimed 20.0 × 1.15 = 23.0.
The `simulate_project` method likewise accepts no management argument, so the
claimed uplifts cannot be applied anywhere in the simulator. -/
theorem C2_growth_ignores_management :
    _get_dbh_growth_mm "Acacia mangium" "tropical" = 20.0
    ∧ _get_dbh_growth_mm "Tectona grandis" "tropical" = 12.0
    ∧ _get_dbh_growth_mm "Fagus sylvatica" "temperate" = 8.0
    ∧ _get_dbh_growth_mm "Picea abies" "boreal" = 5.0
    ∧ (20.0 : ℚ) * 1.15 = 23.0 := by
  refine ⟨rfl, rfl, rfl, rfl, by norm_num⟩

/-- C3 (code_bug evidence): `estimate_soil_carbon` has no biochar parameter
and the post-loop soil pass adds no biochar term; for `area_ha = 100`,
tropical region it returns 2752.5 t CO2e for every `project_years`, whereas
the claim requires 2752.5 + 100 × 5 × 3.67 = 4587.5 when biochar is active. -/
theorem C3_soil_has_no_biochar_term :
    (∀ project_years, estimate_soil_carbon 100 "tropical" project_years = 2752.5)
    ∧ (2752.5 : ℚ) + 100 * 5 * 3.67 = 4587.5 := by
  constructor
  · intro y
    norm_num [estimate_soil_carbon, socDefault, CO2E_FACTOR]
  · norm_num

/-- C10: for a region string that is none of "tropical", "temperate",
"boreal", the growth routine falls into its `else` branch (the boreal rate
5.0 mm/yr, regardless of species), while the soil routine's
`soc_defaults.get(region, 75)` falls back to the tropical default 75 tC/ha —
two different regional fallbacks; both functions are total, so the simulator
still completes. -/
theorem C10_unknown_region_two_fallbacks (region : String)
    (h1 : region ≠ "tropical") (h2 : region ≠ "temperate")
    (h3 : region ≠ "boreal") :
    (∀ species, _get_dbh_growth_mm species region = 5.0)
    ∧ (∀ (area_ha : ℚ) (project_years : ℕ),
        estimate_soil_carbon area_ha region project_years
          = area_ha * 75 * 0.10 * 3.67) := by
  constructor
  · intro species
    simp [_get_dbh_growth_mm, h1, h2]
  · intro area_ha project_years
    simp [estimate_soil_carbon, socDefault, CO2E_FACTOR, h1, h2, h3]

/-- Witness for C10 at the concrete unknown region "alpine". -/
theorem C10_unknown_region_two_fallbacks_witness :
    _get_dbh_growth_mm "Quercus robur" "alpine" = 5.0
    ∧ estimate_soil_carbon 100 "alpine" 40 = 100 * 75 * 0.10 * 3.67 := by
  have h := C10_unknown_region_two_fallbacks "alpine"
    (by decide) (by decide) (by decide)
  exact ⟨h.1 "Quercus robur", h.2 100 40⟩

/-- C4: the coefficient lookup is a total function realising the documented
three-tier fallback chain: the exact `(species, region)` entry when the cache
has one; otherwise some cache entry for the same species (in a different
region, since the exact key is absent); otherwise the fixed generic default
`a = 0.0673`, `b = 2.3230`, `wood_density = 0.5`. -/
theorem C4_coeff_fallback_chain
    (cache : List ((String × String) × Coeffs)) (species region : String) :
    (∀ c, alLookup cache (species, region) = some c →
        get_coeffs cache species region = c)
    ∧ (alLookup cache (species, region) = none →
        (∃ p ∈ cache, p.1.1 = species) →
        ∃ p ∈ cache, p.1.1 = species ∧ get_coeffs cache species region = p.2)
    ∧ (alLookup cache (species, region) = none →
        (∀ p ∈ cache, p.1.1 ≠ species) →
        get_coeffs cache species region = ⟨0.0673, 2.3230, 0.5⟩) := by
  refine ⟨?_, ?_, ?_⟩
  · intro c h
    simp only [get_coeffs, h]
  · intro h hex
    obtain ⟨p, hp, hps⟩ := hex
    have hsome : (cache.find? (fun p => p.1.1 = species)).isSome := by
      rw [List.find?_isSome]
      exact ⟨p, hp, by simp [hps]⟩
    obtain ⟨q, hq⟩ := Option.isSome_iff_exists.mp hsome
    refine ⟨q, List.mem_of_find?_eq_some hq, ?_, ?_⟩
    · have := List.find?_some hq
      simpa using this
    · simp only [get_coeffs, h, hq]
  · intro h hall
    have hnone : cache.find? (fun p => p.1.1 = species) = none := by
      rw [List.find?_eq_none]
      intro p hp
      simp [hall p hp]
    simp only [get_coeffs, h, hnone]

/-- Witness for C4 on a concrete one-entry cache: exact hit, species-level
fallback from a different region, and the generic default for an unknown
species. -/
theorem C4_coeff_fallback_chain_witness :
    get_coeffs [(("oak", "temperate"), ⟨1, 2, 0.5⟩)] "oak" "temperate"
      = ⟨1, 2, 0.5⟩
    ∧ (∃ p ∈ [(("oak", "temperate"), ⟨(1 : ℚ), 2, 0.5⟩)], p.1.1 = "oak"
        ∧ get_coeffs [(("oak", "temperate"), ⟨1, 2, 0.5⟩)] "oak" "boreal" = p.2)
    ∧ get_coeffs [(("oak", "temperate"), ⟨1, 2, 0.5⟩)] "pine" "boreal"
      = ⟨0.0673, 2.3230, 0.5⟩ := by
  refine ⟨?_, ?_, ?_⟩
  · exact (C4_coeff_fallback_chain
      [(("oak", "temperate"), ⟨1, 2, 0.5⟩)] "oak" "temperate").1 _ rfl
  · exact (C4_coeff_fallback_chain
      [(("oak", "temperate"), ⟨1, 2, 0.5⟩)] "oak" "boreal").2.1 rfl
      ⟨(("oak", "temperate"), ⟨1, 2, 0.5⟩), by simp, rfl⟩
  · exact (C4_coeff_fallback_chain
      [(("oak", "temperate"), ⟨1, 2, 0.5⟩)] "pine" "boreal").2.2 rfl
      (by simp)

/-- C5: for fixed species and region, per-tree biomass is monotonically
non-decreasing in diameter (for the physically meaningful nonnegative
power-law coefficients, which the built-in generic default satisfies), and
for every diameter the result is at least the 0.01 kg floor. -/
theorem C5_biomass_monotone_and_floored
    (cache : List ((String × String) × Coeffs)) (species region : String)
    (d1 d2 : ℝ)
    (ha : 0 ≤ (get_coeffs cache species region).a)
    (hb : 0 ≤ (get_coeffs cache species region).b)
    (hd1 : 0 ≤ d1) (h12 : d1 ≤ d2) :
    calculate_agb_kg cache d1 species region
      ≤ calculate_agb_kg cache d2 species region
    ∧ ∀ d : ℝ, 0.01 ≤ calculate_agb_kg cache d species region := by
  constructor
  · simp only [calculate_agb_kg]
    refine max_le_max ?_ le_rfl
    refine mul_le_mul_of_nonneg_left ?_ (by exact_mod_cast ha)
    exact Real.rpow_le_rpow hd1 h12 (by exact_mod_cast hb)
  · intro d
    simp only [calculate_agb_kg]
    exact le_max_right _ _

/-- Witness for C5: the generic default coefficients (empty cache) with
diameters 1 and 2. -/
theorem C5_biomass_monotone_and_floored_witness :
    calculate_agb_kg [] 1 "Some species" "tropical"
      ≤ calculate_agb_kg [] 2 "Some species" "tropical"
    ∧ ∀ d : ℝ, 0.01 ≤ calculate_agb_kg [] d "Some species" "tropical" :=
  C5_biomass_monotone_and_floored [] "Some species" "tropical" 1 2
    (by norm_num [get_coeffs, alLookup])
    (by norm_num [get_coeffs, alLookup])
    zero_le_one one_le_two

/-- C6: with a positive cohort count and a mortality fraction at most 1
(the simulator's documented domain is [0,1)), the Python truncation
`int(count * (1 - m))` coincides with the floor; when that floor is
positive it becomes the cohort's survivor count, and when it is ≤ 0 the
whole year step leaves the cohort cleared (count 0, empty diameter list)
with zero biomass contribution for the rest of that year. -/
theorem C6_mortality_floor_and_clear
    (cache : List ((String × String) × Coeffs)) (m : ℚ) (f : Option ℚ)
    (species : String) (c : Cohort) (hc : 0 < c.count) (hm : m ≤ 1) :
    (0 < ⌊(c.count : ℚ) * (1 - m)⌋ →
      (mortalityStep m c).count = ⌊(c.count : ℚ) * (1 - m)⌋)
    ∧ (⌊(c.count : ℚ) * (1 - m)⌋ ≤ 0 →
      stepCohort m f species c = { count := 0, dbh := [], region := c.region }
      ∧ cohortAGB cache species (stepCohort m f species c) = 0) := by
  have hq : 0 ≤ (c.count : ℚ) * (1 - m) := by
    have h1 : (0 : ℚ) ≤ (c.count : ℚ) := by exact_mod_cast hc.le
    have h2 : (0 : ℚ) ≤ 1 - m := by linarith
    exact mul_nonneg h1 h2
  have hpy : pyInt ((c.count : ℚ) * (1 - m)) = ⌊(c.count : ℚ) * (1 - m)⌋ :=
    if_neg (not_lt.mpr hq)
  constructor
  · intro hpos
    simp only [mortalityStep, hpy, if_neg (not_le.mpr hpos)]
  · intro hle
    have hstep : stepCohort m f species c = { c with count := 0, dbh := [] } := by
      simp only [stepCohort, if_neg (not_le.mpr hc)]
      have hm1 : mortalityStep m c = { c with count := 0, dbh := [] } := by
        simp only [mortalityStep, hpy, if_pos hle]
      rw [hm1]
      simp
    refine ⟨hstep, ?_⟩
    rw [hstep]
    simp [cohortAGB]

/-- Witness for C6: applying the theorem at a concrete five-tree cohort with
zero mortality gives survivor count ⌊5 × 1⌋ = 5. -/
theorem C6_mortality_floor_and_clear_witness :
    (mortalityStep 0 ⟨5, [1], "tropical"⟩).count = 5 := by
  have h := (C6_mortality_floor_and_clear [] 0 none "x" ⟨5, [1], "tropical"⟩
    (by decide) (by decide)).1 (by simp)
  rw [h]
  simp

/-- C7: the slice `np.sort(dbh)[-k:]` used by both mortality culling and
thinning retains exactly the `k` largest diameters: the result has length
`k`, is a sub-multiset of the original diameters, and every removed diameter
is ≤ every retained one; and the growth map never changes the number of
diameter values. -/
theorem C7_cull_keeps_largest (l : List ℚ) (k : ℕ) (g : ℚ)
    (hk0 : 0 < k) (hkl : k ≤ l.length) :
    (cull l k).length = k
    ∧ List.Subperm (cull l k) l
    ∧ (∀ x ∈ (l : Multiset ℚ) - (cull l k : Multiset ℚ),
        ∀ y ∈ cull l k, x ≤ y)
    ∧ (growDbh g l).length = l.length := by
  have hperm : List.Perm (sortAsc l) l := l.perm_insertionSort (· ≤ ·)
  have hsorted : List.Sorted (· ≤ ·) (sortAsc l) :=
    List.sorted_insertionSort (· ≤ ·) l
  have hlen : (sortAsc l).length = l.length := hperm.length_eq
  have hcull : cull l k = (sortAsc l).drop (l.length - k) := if_neg hk0.ne'
  have hsplit : (sortAsc l).take (l.length - k) ++ (sortAsc l).drop (l.length - k)
      = sortAsc l := List.take_append_drop _ _
  refine ⟨?_, ?_, ?_, List.length_map _ _⟩
  · rw [hcull, List.length_drop, hlen, Nat.sub_sub_self hkl]
  · rw [hcull]
    exact (List.drop_sublist _ _).subperm.trans hperm.subperm
  · intro x hx y hy
    have hml : (l : Multiset ℚ)
        = ↑((sortAsc l).take (l.length - k)) + ↑((sortAsc l).drop (l.length - k)) := by
      have h1 : (l : Multiset ℚ) = ↑(sortAsc l) :=
        (Multiset.coe_eq_coe.mpr hperm).symm
      rw [h1, ← hsplit]
      simp
    rw [hcull, hml, add_tsub_cancel_right] at hx
    have hx' : x ∈ (sortAsc l).take (l.length - k) := by
      exact_mod_cast hx
    have hy' : y ∈ (sortAsc l).drop (l.length - k) := by
      rw [hcull] at hy
      exact hy
    have hpair := List.pairwise_append.mp
      (by rw [hsplit]; exact hsorted : ((sortAsc l).take (l.length - k)
        ++ (sortAsc l).drop (l.length - k)).Pairwise (· ≤ ·))
    exact hpair.2.2 x hx' y hy'

/-- Witness for C7 at the concrete list [3, 1, 2] with k = 2: the retained
diameters are the two largest. -/
theorem C7_cull_keeps_largest_witness :
    (cull [3, 1, 2] 2).length = 2
    ∧ List.Subperm (cull [3, 1, 2] 2) [3, 1, 2]
    ∧ (∀ x ∈ (([3, 1, 2] : List ℚ) : Multiset ℚ)
          - (cull [3, 1, 2] 2 : Multiset ℚ),
        ∀ y ∈ cull [3, 1, 2] 2, x ≤ y)
    ∧ (growDbh 10 [3, 1, 2]).length = ([3, 1, 2] : List ℚ).length :=
  C7_cull_keeps_largest [3, 1, 2] 2 10 (by decide) (by decide)

/-- C8: for a non-empty species mix, every yearly record carries the same
constant soil CO2e (the one-time total divided by `project_years`), and the
soil fields sum back exactly (exact rational arithmetic) to the one-time
total `area_ha × socDefault(first region) × 0.10 × 3.67`, with the regional
defaults 75 / 100 / 150 tC/ha. -/
theorem C8_soil_constant_and_sums_to_total
    (cache : List ((String × String) × Coeffs)) (area_ha : ℚ)
    (e : MixEntry) (rest : List MixEntry) (years : ℕ) (m : ℚ)
    (schedule : List ThinEntry) (hy : 0 < years) :
    (simulate_project cache area_ha (e :: rest) years m schedule).map
        (fun r => r.soil_co2e_gross_t)
      = List.replicate years (estimate_soil_carbon area_ha e.region years / years)
    ∧ ((simulate_project cache area_ha (e :: rest) years m schedule).map
        (fun r => r.soil_co2e_gross_t)).sum
      = area_ha * socDefault e.region * 0.10 * 3.67
    ∧ socDefault "tropical" = 75 ∧ socDefault "temperate" = 100
    ∧ socDefault "boreal" = 150 := by
  have hmap : (simulate_project cache area_ha (e :: rest) years m schedule).map
      (fun r => r.soil_co2e_gross_t)
      = List.replicate years
          (estimate_soil_carbon area_ha e.region years / years) := by
    simp only [simulate_project, soilPass, List.map_map]
    exact (List.map_const' (List.range years)
        (estimate_soil_carbon area_ha e.region years / (years : ℚ))).trans
      (by rw [List.length_range])
  refine ⟨hmap, ?_, rfl, rfl, rfl⟩
  rw [hmap, List.sum_replicate, nsmul_eq_mul,
    mul_div_cancel₀ _ (by exact_mod_cast hy.ne' : (years : ℚ) ≠ 0)]
  simp only [estimate_soil_carbon, CO2E_FACTOR]

/-- Witness for C8 at a concrete one-year tropical run. -/
theorem C8_soil_constant_and_sums_to_total_witness :
    (simulate_project [] 1 [⟨"t", "tropical", 100, 1100⟩] 1 0 []).map
        (fun r => r.soil_co2e_gross_t)
      = List.replicate 1 (estimate_soil_carbon 1 "tropical" 1 / 1)
    ∧ ((simulate_project [] 1 [⟨"t", "tropical", 100, 1100⟩] 1 0 []).map
        (fun r => r.soil_co2e_gross_t)).sum
      = 1 * socDefault "tropical" * 0.10 * 3.67
    ∧ socDefault "tropical" = 75 ∧ socDefault "temperate" = 100
    ∧ socDefault "boreal" = 150 :=
  C8_soil_constant_and_sums_to_total [] 1 ⟨"t", "tropical", 100, 1100⟩ [] 1 0 []
    (by decide)

/-- C1 (amended): in every YearlyResult returned by `simulate_project` the
net CO2e field equals the gross CO2e field unchanged — the simulator stores
gross under the net key ("Will apply buffer later") and the 20% buffer split
is applied by the caller (app.py), where gross 1000 gives net 800 and buffer
held 200 exactly. -/
theorem C1_net_field_equals_gross
    (cache : List ((String × String) × Coeffs)) (area_ha : ℚ)
    (mix : List MixEntry) (years : ℕ) (m : ℚ) (schedule : List ThinEntry) :
    (simulate_project cache area_ha mix years m schedule).map
        (fun r => r.co2e_net_t)
      = (simulate_project cache area_ha mix years m schedule).map
        (fun r => r.co2e_gross_t)
    ∧ appNetTotal 1000 VERRA_BUFFER = 800
    ∧ appBufferHeld 1000 VERRA_BUFFER = 200 := by
  refine ⟨?_, by norm_num [appNetTotal, VERRA_BUFFER],
    by norm_num [appBufferHeld, VERRA_BUFFER]⟩
  cases mix with
  | nil =>
    simp only [simulate_project, soilPass, List.map_map]
    rfl
  | cons e rest =>
    simp only [simulate_project, soilPass, List.map_map]
    rfl

/-- C1 (counterexample to the claim as stated): in a concrete one-year,
one-tree run the returned record has positive gross CO2e and its net field
equals the gross, so it differs from gross × (1 − 0.20). -/
theorem C1_counterexample_buffer_not_applied :
    ∃ r ∈ simulate_project [] 1 [⟨"Tectona grandis", "tropical", 100, 1⟩] 1 0 [],
      r.co2e_net_t ≠ r.co2e_gross_t * (1 - (0.20 : ℝ)) := by
  have hgrow : _get_dbh_growth_mm "Tectona grandis" "tropical" = 12.0 := rfl
  have hstate : stateAfter 0 [] (buildStand 1
      [⟨"Tectona grandis", "tropical", 100, 1⟩]) 1
      = [("Tectona grandis", ⟨1, [11/5], "tropical"⟩)] := by
    norm_num [stateAfter, stepYear, stepCohort, mortalityStep, thinningStep,
      growthStep, growDbh, buildStand, alUpsert, pyInt, thinFracAt, hgrow, cull]
  have hGpos : 0 < (mkRecord [] 1
      [("Tectona grandis", ⟨1, [11/5], "tropical"⟩)]).co2e_gross_t := by
    have hagb : (0.01 : ℝ) ≤ calculate_agb_kg [] ((11/5 : ℚ) : ℝ)
        "Tectona grandis" "tropical" := by
      simp only [calculate_agb_kg]
      exact le_max_right _ _
    have h1 : ((ROOT_SHOOT : ℚ) : ℝ) = 0.2 := by
      norm_num [ROOT_SHOOT]
    have h2 : ((CARBON_FRACTION : ℚ) : ℝ) = 0.47 := by
      norm_num [CARBON_FRACTION]
    have h3 : ((CO2E_FACTOR : ℚ) : ℝ) = 3.67 := by
      norm_num [CO2E_FACTOR]
    have hval : (mkRecord [] 1
        [("Tectona grandis", ⟨1, [11/5], "tropical"⟩)]).co2e_gross_t
        = ((calculate_agb_kg [] ((11/5 : ℚ) : ℝ) "Tectona grandis" "tropical"
              + 0) * (1 + ((ROOT_SHOOT : ℚ) : ℝ)) + 0) / 1000
            * ((CARBON_FRACTION : ℚ) : ℝ) * ((CO2E_FACTOR : ℚ) : ℝ) := rfl
    rw [hval, h1, h2, h3]
    nlinarith [hagb]
  simp only [simulate_project, soilPass, List.range_succ, List.range_zero,
    List.nil_append, List.map_cons, List.map_nil, Nat.zero_add, hstate]
  refine ⟨_, List.mem_singleton_self _, ?_⟩
  intro h
  have hne : (mkRecord [] 1
      [("Tectona grandis", ⟨1, [11/5], "tropical"⟩)]).co2e_net_t
      = (mkRecord [] 1
      [("Tectona grandis", ⟨1, [11/5], "tropical"⟩)]).co2e_gross_t := rfl
  have hgg : (mkRecord [] 1
      [("Tectona grandis", ⟨1, [11/5], "tropical"⟩)]).co2e_gross_t
      = (mkRecord [] 1
      [("Tectona grandis", ⟨1, [11/5], "tropical"⟩)]).co2e_gross_t
        * (1 - (0.20 : ℝ)) := by
    exact h
  nlinarith [hGpos, hgg]

/-! ### Helper lemmas for the stem-count claim -/

lemma pyInt_nonneg {q : ℚ} (h : 0 ≤ q) : 0 ≤ pyInt q := by
  unfold pyInt
  rw [if_neg (not_lt.mpr h)]
  exact Int.floor_nonneg.mpr h

lemma pyInt_le_intCast {q : ℚ} {n : ℤ} (h : q ≤ (n : ℚ)) : pyInt q ≤ n := by
  unfold pyInt
  split
  · exact Int.ceil_le.mpr h
  · calc ⌊q⌋ ≤ ⌊(n : ℚ)⌋ := Int.floor_le_floor h
      _ = n := Int.floor_intCast n

lemma pyInt_lt_intCast {q : ℚ} {n : ℤ} (hn : 0 < n) (h : q < (n : ℚ)) :
    pyInt q < n := by
  unfold pyInt
  split
  · calc ⌈q⌉ ≤ ⌈(0 : ℚ)⌉ := Int.ceil_le_ceil (by linarith [show q < 0 by assumption])
      _ = 0 := by simp
      _ < n := hn
  · exact Int.floor_lt.mpr h

lemma mortalityStep_count_nonneg (m : ℚ) (c : Cohort) :
    0 ≤ (mortalityStep m c).count := by
  unfold mortalityStep
  by_cases h : pyInt ((c.count : ℚ) * (1 - m)) ≤ 0
  · simp [h]
  · simp only [h, if_false]
    omega

lemma mortalityStep_count_le (m : ℚ) (c : Cohort) (hm : 0 ≤ m)
    (hc : 0 ≤ c.count) : (mortalityStep m c).count ≤ c.count := by
  unfold mortalityStep
  by_cases h : pyInt ((c.count : ℚ) * (1 - m)) ≤ 0
  · simp only [h, if_true]
    exact hc
  · simp only [h, if_false]
    apply pyInt_le_intCast
    have hcq : (0 : ℚ) ≤ (c.count : ℚ) := by exact_mod_cast hc
    nlinarith

lemma thinningStep_count_nonneg (f : Option ℚ) (c : Cohort)
    (hc : 0 ≤ c.count) : 0 ≤ (thinningStep f c).count := by
  cases f with
  | none => exact hc
  | some frac =>
    unfold thinningStep
    by_cases h : 0 < pyInt ((c.count : ℚ) * (1 - frac))
    · simp only [h, if_true]
      exact h.le
    · simp [h]

lemma thinningStep_count_le (f : Option ℚ) (c : Cohort)
    (hf : ∀ q, f = some q → 0 ≤ q) (hc : 0 ≤ c.count) :
    (thinningStep f c).count ≤ c.count := by
  cases hfv : f with
  | none => exact le_rfl
  | some frac =>
    have hfrac : 0 ≤ frac := hf frac hfv
    unfold thinningStep
    by_cases h : 0 < pyInt ((c.count : ℚ) * (1 - frac))
    · simp only [h, if_true]
      apply pyInt_le_intCast
      have hcq : (0 : ℚ) ≤ (c.count : ℚ) := by exact_mod_cast hc
      nlinarith
    · simp only [h, if_false]
      exact hc

lemma stepCohort_count_nonneg (m : ℚ) (f : Option ℚ) (sp : String)
    (c : Cohort) (hc : 0 ≤ c.count) : 0 ≤ (stepCohort m f sp c).count := by
  unfold stepCohort
  by_cases h0 : c.count ≤ 0
  · simp only [h0, if_true]
    exact hc
  · by_cases h1 : (mortalityStep m c).count ≤ 0
    · simp only [h0, if_false, h1, if_true]
      exact mortalityStep_count_nonneg m c
    · simp only [h0, if_false, h1, growthStep]
      exact thinningStep_count_nonneg _ _ (mortalityStep_count_nonneg m c)

lemma stepCohort_count_le (m : ℚ) (f : Option ℚ) (sp : String) (c : Cohort)
    (hm : 0 ≤ m) (hf : ∀ q, f = some q → 0 ≤ q) (hc : 0 ≤ c.count) :
    (stepCohort m f sp c).count ≤ c.count := by
  unfold stepCohort
  by_cases h0 : c.count ≤ 0
  · simp only [h0, if_true]
    exact le_rfl
  · by_cases h1 : (mortalityStep m c).count ≤ 0
    · simp only [h0, if_false, h1, if_true]
      exact le_trans h1 hc
    · simp only [h0, if_false, h1, growthStep]
      exact le_trans
        (thinningStep_count_le f _ hf (mortalityStep_count_nonneg m c))
        (mortalityStep_count_le m c hm hc)

lemma stepCohort_count_lt (m : ℚ) (f : Option ℚ) (sp : String) (c : Cohort)
    (hm0 : 0 < m) (hf : ∀ q, f = some q → 0 ≤ q) (hc : 0 < c.count) :
    (stepCohort m f sp c).count ≤ c.count - 1 := by
  have h0 : ¬ c.count ≤ 0 := not_le.mpr hc
  have hsurv : pyInt ((c.count : ℚ) * (1 - m)) ≤ c.count - 1 := by
    have hcq : (0 : ℚ) < (c.count : ℚ) := by exact_mod_cast hc
    have hlt : (c.count : ℚ) * (1 - m) < (c.count : ℚ) := by nlinarith
    have := pyInt_lt_intCast (by exact_mod_cast hc) hlt
    omega
  unfold stepCohort
  by_cases h1 : (mortalityStep m c).count ≤ 0
  · simp only [h0, if_false, h1, if_true]
    omega
  · simp only [h0, if_false, h1, growthStep]
    have hmort : (mortalityStep m c).count ≤ c.count - 1 := by
      unfold mortalityStep
      by_cases h2 : pyInt ((c.count : ℚ) * (1 - m)) ≤ 0
      · simp only [h2, if_true]
        omega
      · simp only [h2, if_false]
        exact hsurv
    exact le_trans
      (thinningStep_count_le f _ hf (mortalityStep_count_nonneg m c)) hmort

lemma thinFracAt_nonneg (schedule : List ThinEntry) (y : ℕ)
    (hsched : ∀ t ∈ schedule, 0 ≤ t.pct_remove) :
    ∀ q, thinFracAt schedule y = some q → 0 ≤ q := by
  intro q hq
  unfold thinFracAt at hq
  obtain ⟨t, ht, rfl⟩ := Option.map_eq_some'.mp hq
  have htm : t ∈ schedule := List.mem_reverse.mp (List.mem_of_find?_eq_some ht)
  exact div_nonneg (hsched t htm) (by norm_num)

lemma standTrees_nonneg (st : List (String × Cohort))
    (h : ∀ p ∈ st, 0 ≤ p.2.count) : 0 ≤ standTrees st := by
  unfold standTrees
  apply List.sum_nonneg
  intro x hx
  obtain ⟨p, hp, rfl⟩ := List.mem_map.mp hx
  exact h p hp

lemma stepYear_preserves_nonneg (m : ℚ) (schedule : List ThinEntry) (y : ℕ)
    (st : List (String × Cohort)) (h : ∀ p ∈ st, 0 ≤ p.2.count) :
    ∀ p ∈ stepYear m schedule y st, 0 ≤ p.2.count := by
  intro p hp
  obtain ⟨q, hq, rfl⟩ := List.mem_map.mp hp
  exact stepCohort_count_nonneg _ _ _ _ (h q hq)

lemma standTrees_stepYear_le (m : ℚ) (schedule : List ThinEntry) (y : ℕ)
    (st : List (String × Cohort)) (hm : 0 ≤ m)
    (hsched : ∀ t ∈ schedule, 0 ≤ t.pct_remove)
    (h : ∀ p ∈ st, 0 ≤ p.2.count) :
    standTrees (stepYear m schedule y st) ≤ standTrees st := by
  unfold standTrees stepYear
  rw [List.map_map]
  apply List.sum_le_sum
  intro p hp
  exact stepCohort_count_le _ _ _ _ hm
    (thinFracAt_nonneg schedule y hsched) (h p hp)

lemma standTrees_stepYear_lt (m : ℚ) (schedule : List ThinEntry) (y : ℕ)
    (hm0 : 0 < m) (hsched : ∀ t ∈ schedule, 0 ≤ t.pct_remove) :
    ∀ st : List (String × Cohort), (∀ p ∈ st, 0 ≤ p.2.count) →
      0 < standTrees st →
      standTrees (stepYear m schedule y st) ≤ standTrees st - 1 := by
  intro st
  induction st with
  | nil =>
    intro _ hpos
    simp [standTrees] at hpos
  | cons p rest ih =>
    intro h hpos
    have hp0 : 0 ≤ p.2.count := h p (List.mem_cons_self _ _)
    have hrest : ∀ q ∈ rest, 0 ≤ q.2.count :=
      fun q hq => h q (List.mem_cons_of_mem _ hq)
    have hsplit : standTrees (p :: rest) = p.2.count + standTrees rest := by
      simp [standTrees]
    have hsplit2 : standTrees (stepYear m schedule y (p :: rest))
        = (stepCohort m (thinFracAt schedule y) p.1 p.2).count
          + standTrees (stepYear m schedule y rest) := by
      simp [standTrees, stepYear]
    by_cases hpc : 0 < p.2.count
    · have h1 := stepCohort_count_lt m (thinFracAt schedule y) p.1 p.2 hm0
        (thinFracAt_nonneg schedule y hsched) hpc
      have h2 := standTrees_stepYear_le m schedule y rest hm0.le hsched hrest
      rw [hsplit, hsplit2]
      omega
    · have hpc0 : p.2.count = 0 := le_antisymm (not_lt.mp hpc) hp0
      have hstep : (stepCohort m (thinFracAt schedule y) p.1 p.2).count = 0 := by
        unfold stepCohort
        rw [if_pos (by omega : p.2.count ≤ 0)]
        exact hpc0
      have hpos' : 0 < standTrees rest := by
        rw [hsplit] at hpos
        omega
      have h3 := ih hrest hpos'
      rw [hsplit, hsplit2, hstep]
      omega

lemma stateAfter_nonneg (m : ℚ) (schedule : List ThinEntry)
    (init : List (String × Cohort)) (hinit : ∀ p ∈ init, 0 ≤ p.2.count) :
    ∀ y, ∀ p ∈ stateAfter m schedule init y, 0 ≤ p.2.count := by
  intro y
  induction y with
  | zero => exact hinit
  | succ n ih =>
    exact stepYear_preserves_nonneg m schedule (n + 1)
      (stateAfter m schedule init n) ih

lemma treesAt_nonneg (m : ℚ) (schedule : List ThinEntry)
    (init : List (String × Cohort)) (hinit : ∀ p ∈ init, 0 ≤ p.2.count)
    (y : ℕ) : 0 ≤ treesAt m schedule init y :=
  standTrees_nonneg _ (stateAfter_nonneg m schedule init hinit y)

lemma treesAt_succ_le (m : ℚ) (schedule : List ThinEntry)
    (init : List (String × Cohort)) (hm : 0 ≤ m)
    (hsched : ∀ t ∈ schedule, 0 ≤ t.pct_remove)
    (hinit : ∀ p ∈ init, 0 ≤ p.2.count) (y : ℕ) :
    treesAt m schedule init (y + 1) ≤ treesAt m schedule init y :=
  standTrees_stepYear_le m schedule (y + 1) (stateAfter m schedule init y)
    hm hsched (stateAfter_nonneg m schedule init hinit y)

lemma treesAt_le_init_sub (m : ℚ) (schedule : List ThinEntry)
    (init : List (String × Cohort)) (hm0 : 0 < m)
    (hsched : ∀ t ∈ schedule, 0 ≤ t.pct_remove)
    (hinit : ∀ p ∈ init, 0 ≤ p.2.count) :
    ∀ y : ℕ, treesAt m schedule init y ≤ treesAt m schedule init 0 - y
      ∨ treesAt m schedule init y ≤ 0 := by
  intro y
  induction y with
  | zero =>
    left
    simp
  | succ n ih =>
    have hle := treesAt_succ_le m schedule init hm0.le hsched hinit n
    rcases ih with h | h
    · by_cases hp : 0 < treesAt m schedule init n
      · left
        have h1 : treesAt m schedule init (n + 1)
            ≤ treesAt m schedule init n - 1 :=
          standTrees_stepYear_lt m schedule (n + 1) hm0 hsched
            (stateAfter m schedule init n)
            (stateAfter_nonneg m schedule init hinit n) hp
        push_cast
        omega
      · right
        have := not_lt.mp hp
        omega
    · right
      omega

lemma treesAt_eventually_zero (m : ℚ) (schedule : List ThinEntry)
    (init : List (String × Cohort)) (hm0 : 0 < m)
    (hsched : ∀ t ∈ schedule, 0 ≤ t.pct_remove)
    (hinit : ∀ p ∈ init, 0 ≤ p.2.count) (y : ℕ)
    (hy : (treesAt m schedule init 0).toNat ≤ y) :
    treesAt m schedule init y = 0 := by
  have hnn := treesAt_nonneg m schedule init hinit y
  have h0 : treesAt m schedule init 0 ≤ (y : ℤ) := by
    have := Int.toNat_le.mp hy
    exact_mod_cast this
  rcases treesAt_le_init_sub m schedule init hm0 hsched hinit y with h | h
  · omega
  · omega

lemma buildStand_nonneg (area_ha : ℚ) (mix : List MixEntry)
    (hA : 0 ≤ area_ha) (hmix : ∀ e ∈ mix, 0 ≤ e.density ∧ 0 ≤ e.pct) :
    ∀ p ∈ buildStand area_ha mix, 0 ≤ p.2.count := by
  unfold buildStand
  suffices h : ∀ (mix' : List MixEntry) (acc : List (String × Cohort)),
      (∀ e ∈ mix', 0 ≤ e.density ∧ 0 ≤ e.pct) →
      (∀ p ∈ acc, 0 ≤ p.2.count) →
      ∀ p ∈ mix'.foldl (fun stand e =>
        alUpsert stand e.species_name
          ⟨pyInt (area_ha * e.density * (e.pct / 100)),
           List.replicate (pyInt (area_ha * e.density * (e.pct / 100))).toNat 1.0,
           e.region⟩) acc, 0 ≤ p.2.count by
    exact h mix [] hmix (by simp)
  intro mix'
  induction mix' with
  | nil =>
    intro acc _ hacc p hp
    simpa using hacc p (by simpa using hp)
  | cons e rest ih =>
    intro acc hm hacc
    simp only [List.foldl_cons]
    apply ih _ (fun e' he' => hm e' (List.mem_cons_of_mem _ he'))
    intro p hp
    unfold alUpsert at hp
    split at hp
    · obtain ⟨q, hq, hpq⟩ := List.mem_map.mp hp
      by_cases hqk : q.1 = e.species_name
      · rw [if_pos hqk] at hpq
        subst hpq
        exact pyInt_nonneg (mul_nonneg
          (mul_nonneg hA (hm e (List.mem_cons_self _ _)).1)
          (div_nonneg (hm e (List.mem_cons_self _ _)).2 (by norm_num)))
      · rw [if_neg hqk] at hpq
        subst hpq
        exact hacc q hq
    · rcases List.mem_append.mp hp with hmem | hmem
      · exact hacc p hmem
      · have : p = (e.species_name,
            (⟨pyInt (area_ha * e.density * (e.pct / 100)),
              List.replicate (pyInt (area_ha * e.density * (e.pct / 100))).toNat 1.0,
              e.region⟩ : Cohort)) := by simpa using hmem
        subst this
        exact pyInt_nonneg (mul_nonneg
          (mul_nonneg hA (hm e (List.mem_cons_self _ _)).1)
          (div_nonneg (hm e (List.mem_cons_self _ _)).2 (by norm_num)))

/-- C9: with positive mortality, a thinning schedule with nonnegative
removal percentages and nonnegative area/density/percentage inputs, the
total live stem count reported in the yearly records — which equals the
stand total after each simulated year — is non-negative, non-increasing
from each year to the next, and is exactly 0 from the initial total stem
count onwards (sustained mortality eventually empties the stand). -/
theorem C9_stems_nonneg_nonincreasing_eventually_zero
    (cache : List ((String × String) × Coeffs)) (area_ha : ℚ)
    (mix : List MixEntry) (years : ℕ) (m : ℚ) (schedule : List ThinEntry)
    (hm0 : 0 < m) (hA : 0 ≤ area_ha)
    (hmix : ∀ e ∈ mix, 0 ≤ e.density ∧ 0 ≤ e.pct)
    (hsched : ∀ t ∈ schedule, 0 ≤ t.pct_remove) :
    ((simulate_project cache area_ha mix years m schedule).map
        (fun r => r.trees_total)
      = (List.range years).map
          (fun i => treesAt m schedule (buildStand area_ha mix) (i + 1)))
    ∧ (∀ y, 0 ≤ treesAt m schedule (buildStand area_ha mix) y)
    ∧ (∀ y, treesAt m schedule (buildStand area_ha mix) (y + 1)
          ≤ treesAt m schedule (buildStand area_ha mix) y)
    ∧ (∀ y, (treesAt m schedule (buildStand area_ha mix) 0).toNat ≤ y →
          treesAt m schedule (buildStand area_ha mix) y = 0) := by
  have hinit := buildStand_nonneg area_ha mix hA hmix
  refine ⟨?_, treesAt_nonneg m schedule _ hinit,
    fun y => treesAt_succ_le m schedule _ hm0.le hsched hinit y,
    fun y hy => treesAt_eventually_zero m schedule _ hm0 hsched hinit y hy⟩
  cases mix with
  | nil =>
    simp only [simulate_project, soilPass, List.map_map]
    rfl
  | cons e rest =>
    simp only [simulate_project, soilPass, List.map_map]
    rfl

/-- Witness for C9 at a concrete two-tree, three-year run with 50%
mortality. -/
theorem C9_stems_nonneg_nonincreasing_eventually_zero_witness :
    ((simulate_project [] 1 [⟨"t", "tropical", 100, 2⟩] 3 (1/2) []).map
        (fun r => r.trees_total)
      = (List.range 3).map
          (fun i => treesAt (1/2) [] (buildStand 1 [⟨"t", "tropical", 100, 2⟩]) (i + 1)))
    ∧ (∀ y, 0 ≤ treesAt (1/2) [] (buildStand 1 [⟨"t", "tropical", 100, 2⟩]) y)
    ∧ (∀ y, treesAt (1/2) [] (buildStand 1 [⟨"t", "tropical", 100, 2⟩]) (y + 1)
          ≤ treesAt (1/2) [] (buildStand 1 [⟨"t", "tropical", 100, 2⟩]) y)
    ∧ (∀ y, (treesAt (1/2) [] (buildStand 1 [⟨"t", "tropical", 100, 2⟩]) 0).toNat ≤ y →
          treesAt (1/2) [] (buildStand 1 [⟨"t", "tropical", 100, 2⟩]) y = 0) :=
  C9_stems_nonneg_nonincreasing_eventually_zero [] 1 [⟨"t", "tropical", 100, 2⟩]
    3 (1/2) [] (by simp) (by decide)
    (by intro e he; constructor <;> · simp at he; simp [he])
    (by intro t ht; simp at ht)

end CarbonSim
